import Mathlib

/-!
Verification of the signaling-log parsing and visualization core of the
easemob-callkit-signaflow repository.

The development shallowly embeds `src/core/SignalParser.ts` and
`src/core/Visualizer.ts`:

* JavaScript strings are `String` / `List Char`; the specific regular
  expressions used by the parser are token sequences interpreted by a
  deterministic maximal-munch matcher (`matchToksAux` / `searchToks`).
  Every character class adjacent to a repetition in the source regexes is
  disjoint from what follows it, so greedy maximal munch with leftmost
  starting position is exactly the JS `String.match` semantics for them.
* JS `Map` (insertion-ordered, unique keys) is an association list
  (`alFind` / `alSet` / `alKeys`); `alSet` keeps the position of an
  existing key and appends a fresh key, as `Map.set` does.
* The mutable `SignalParser` instance is an explicit `ParserState`
  record threaded through the operations.
* `Array.prototype.sort` with the comparator
  `(a, b) => (a.msgTimestamp || a.ts) - (b.msgTimestamp || b.ts)` is a
  stable sort, i.e. it produces the unique permutation ordered
  lexicographically by (effective time, original position); it is embedded
  as an insertion sort over position-tagged events (`sortIndexed`).
* `formatTimestamp` formats a millisecond timestamp in the local time
  zone; the time zone is outside the embedding, so diagram rendering is
  parameterized by the formatting function `fmt : Nat → String` and the
  embedding keeps the numeric argument handed to it.
-/

/-! ### Character classes (JS regex `\s`, `\w`, `\d`, `[\w-]`) -/

/-- JS `\s` restricted to the ASCII whitespace characters that occur in
device logs. -/
def isWsChar (c : Char) : Bool :=
  c = ' ' || c = '\t' || c = '\n' || c = '\r' || c = '\x0b' || c = '\x0c'

/-- JS `\w`: ASCII letters, digits and underscore. -/
def isWordChar (c : Char) : Bool :=
  c.isAlphanum || c = '_'

/-- JS `[\w-]`. -/
def isWordDashChar (c : Char) : Bool :=
  isWordChar c || c = '-'

/-! ### Substring containment (JS `String.includes`) -/

/-- `startsWithCL needle hay`: `needle` is a prefix of `hay`. -/
def startsWithCL : List Char → List Char → Bool
  | [], _ => true
  | _ :: _, [] => false
  | a :: as, b :: bs => a = b && startsWithCL as bs

/-- `hasSubCL needle hay`: `needle` occurs contiguously in `hay`. -/
def hasSubCL (needle : List Char) : List Char → Bool
  | [] => needle.isEmpty
  | c :: cs => startsWithCL needle (c :: cs) || hasSubCL needle cs

/-- JS `hay.includes(needle)`. -/
def strIncludes (hay needle : String) : Bool :=
  hasSubCL needle.toList hay.toList

/-! ### A deterministic matcher for the parser's regular expressions -/

/-- One token of a source regex: a literal character, `\s*`, `\w+`,
`[\w-]+`, `\d+`, or the capturing groups `([\w-]+)` / `(\d+)`. -/
inductive RTok where
  | lit (c : Char)
  | ws
  | word
  | wordDash
  | digits
  | capWord
  | capDigits
deriving DecidableEq

/-- Literal characters of `s` as tokens. -/
def litToks (s : String) : List RTok :=
  s.toList.map RTok.lit

/-- Match a token sequence at the start of `cs`, maximal-munch for every
repetition, carrying the (single) capture; returns the capture on
success. -/
def matchToksAux : List RTok → List Char → Option String → Option String
  | [], _, cap => cap
  | RTok.lit _ :: _, [], _ => none
  | RTok.lit c :: ts, d :: cs, cap =>
      if d = c then matchToksAux ts cs cap else none
  | RTok.ws :: ts, cs, cap => matchToksAux ts (cs.dropWhile isWsChar) cap
  | RTok.word :: ts, cs, cap =>
      if (cs.takeWhile isWordChar).isEmpty then none
      else matchToksAux ts (cs.dropWhile isWordChar) cap
  | RTok.wordDash :: ts, cs, cap =>
      if (cs.takeWhile isWordDashChar).isEmpty then none
      else matchToksAux ts (cs.dropWhile isWordDashChar) cap
  | RTok.digits :: ts, cs, cap =>
      if (cs.takeWhile Char.isDigit).isEmpty then none
      else matchToksAux ts (cs.dropWhile Char.isDigit) cap
  | RTok.capWord :: ts, cs, _ =>
      let run := cs.takeWhile isWordDashChar
      if run.isEmpty then none
      else matchToksAux ts (cs.dropWhile isWordDashChar) (some (String.mk run))
  | RTok.capDigits :: ts, cs, _ =>
      let run := cs.takeWhile Char.isDigit
      if run.isEmpty then none
      else matchToksAux ts (cs.dropWhile Char.isDigit) (some (String.mk run))

/-- Leftmost unanchored match (JS `String.match`): try each start
position from the left, first success wins. -/
def searchToks : List RTok → List Char → Option String
  | ts, [] => matchToksAux ts [] none
  | ts, c :: cs =>
      match matchToksAux ts (c :: cs) none with
      | some r => some r
      | none => searchToks ts cs

/-- The capture of the first match of the pattern in `s`, if any. -/
def regexFirstCapture (ts : List RTok) (s : String) : Option String :=
  searchToks ts s.toList

/-- Decimal value of a digit string (`parseInt(d, 10)` on a `\d+`
capture). -/
def digitsToNat (s : String) : Nat :=
  s.toList.foldl (fun n c => n * 10 + (c.toNat - '0'.toNat)) 0

/-! ### Data model (`SignalParser.ts`) -/

/-- `ParsedLogInfo` (SignalParser.ts line 13).  `msgTimestamp` is the
optional outer message-level timestamp carried by the canonical fuller
parser variant and read by the Visualizer (`log.msgTimestamp`); the
`extractLogInfo` under `src/` leaves it absent. -/
structure ParsedLogInfo where
  callId : String
  «from» : String
  «to» : String
  action : String
  ts : Nat
  msgTimestamp : Option Nat := none
  rawLog : Option String := none
deriving DecidableEq

/-- Session categories (`'oneToOne' | 'group' | 'unknown'`). -/
inductive CallType where
  | oneToOne
  | group
  | unknown
deriving DecidableEq

/-! ### Insertion-ordered maps (JS `Map`) -/

/-- `Map.get`. -/
def alFind {α : Type} : List (String × α) → String → Option α
  | [], _ => none
  | (k', v) :: rest, k => if k' = k then some v else alFind rest k

/-- `Map.set`: update an existing key in place, append a fresh key. -/
def alSet {α : Type} : List (String × α) → String → α → List (String × α)
  | [], k, v => [(k, v)]
  | (k', v') :: rest, k, v =>
      if k' = k then (k, v) :: rest else (k', v') :: alSet rest k v

/-- Key list in insertion order. -/
def alKeys {α : Type} (m : List (String × α)) : List String :=
  m.map Prod.fst

/-- The mutable fields of a `SignalParser` instance. -/
structure ParserState where
  rtcCallLogs : List ParsedLogInfo
  callIdToLogsMap : List (String × List ParsedLogInfo)
  oneToOneCallMap : List (String × List ParsedLogInfo)
  groupCallMap : List (String × List ParsedLogInfo)
  unknownCallMap : List (String × List ParsedLogInfo)
  callTypeMap : List (String × CallType)
deriving DecidableEq

/-- A freshly constructed `SignalParser`. -/
def emptyParserState : ParserState :=
  { rtcCallLogs := []
    callIdToLogsMap := []
    oneToOneCallMap := []
    groupCallMap := []
    unknownCallMap := []
    callTypeMap := [] }

/-! ### Field extraction (SignalParser.ts lines 57-131) -/

/-- `/key\s*:\s*callId\s*,\s*type\s*:\s*\d+\s*,\s*value\s*:\s*([\w-]+)/` -/
def callIdPattern : List RTok :=
  litToks "key" ++ [RTok.ws] ++ litToks ":" ++ [RTok.ws] ++ litToks "callId" ++
    [RTok.ws] ++ litToks "," ++ [RTok.ws] ++ litToks "type" ++ [RTok.ws] ++
    litToks ":" ++ [RTok.ws] ++ [RTok.digits] ++ [RTok.ws] ++ litToks "," ++
    [RTok.ws] ++ litToks "value" ++ [RTok.ws] ++ litToks ":" ++ [RTok.ws] ++
    [RTok.capWord]

/-- `/chattype\s*:\s*\w+\s*,\s*from\s*:\s*([\w-]+)/` -/
def fromPattern : List RTok :=
  litToks "chattype" ++ [RTok.ws] ++ litToks ":" ++ [RTok.ws] ++ [RTok.word] ++
    [RTok.ws] ++ litToks "," ++ [RTok.ws] ++ litToks "from" ++ [RTok.ws] ++
    litToks ":" ++ [RTok.ws] ++ [RTok.capWord]

/-- `/from\s*:\s*[\w-]+\s*,\s*to\s*:\s*([\w-]+)/` -/
def toPattern : List RTok :=
  litToks "from" ++ [RTok.ws] ++ litToks ":" ++ [RTok.ws] ++ [RTok.wordDash] ++
    [RTok.ws] ++ litToks "," ++ [RTok.ws] ++ litToks "to" ++ [RTok.ws] ++
    litToks ":" ++ [RTok.ws] ++ [RTok.capWord]

/-- `/key\s*:\s*action\s*,\s*type\s*:\s*\d+\s*,\s*value\s*:\s*([\w-]+)/` -/
def actionPattern : List RTok :=
  litToks "key" ++ [RTok.ws] ++ litToks ":" ++ [RTok.ws] ++ litToks "action" ++
    [RTok.ws] ++ litToks "," ++ [RTok.ws] ++ litToks "type" ++ [RTok.ws] ++
    litToks ":" ++ [RTok.ws] ++ [RTok.digits] ++ [RTok.ws] ++ litToks "," ++
    [RTok.ws] ++ litToks "value" ++ [RTok.ws] ++ litToks ":" ++ [RTok.ws] ++
    [RTok.capWord]

/-- `/key\s*:\s*ts\s*,\s*type\s*:\s*\d+\s*,\s*value\s*:\s*(\d+)/` -/
def tsPattern : List RTok :=
  litToks "key" ++ [RTok.ws] ++ litToks ":" ++ [RTok.ws] ++ litToks "ts" ++
    [RTok.ws] ++ litToks "," ++ [RTok.ws] ++ litToks "type" ++ [RTok.ws] ++
    litToks ":" ++ [RTok.ws] ++ [RTok.digits] ++ [RTok.ws] ++ litToks "," ++
    [RTok.ws] ++ litToks "value" ++ [RTok.ws] ++ litToks ":" ++ [RTok.ws] ++
    [RTok.capDigits]

/-- `SignalParser.extractCallId`. -/
def extractCallId (logLine : String) : Option String :=
  regexFirstCapture callIdPattern logLine

/-- `SignalParser.extractFrom`. -/
def extractFrom (logLine : String) : Option String :=
  regexFirstCapture fromPattern logLine

/-- `SignalParser.extractTo`. -/
def extractTo (logLine : String) : Option String :=
  regexFirstCapture toPattern logLine

/-- `SignalParser.extractAction`. -/
def extractAction (logLine : String) : Option String :=
  regexFirstCapture actionPattern logLine

/-- `SignalParser.extractTs`. -/
def extractTs (logLine : String) : Option Nat :=
  (regexFirstCapture tsPattern logLine).map digitsToNat

/-- `SignalParser.extractLogInfo` (line 112).  The JS guard
`if (callId && from && to && action && ts !== null)` is truthiness on the
four strings (a captured `[\w-]+` is never empty, but the check is kept
verbatim) and a null check on `ts`. -/
def extractLogInfo (logLine : String) : Option ParsedLogInfo :=
  match extractCallId logLine, extractFrom logLine, extractTo logLine,
      extractAction logLine, extractTs logLine with
  | some callId, some f, some t, some action, some ts =>
      if callId ≠ "" ∧ f ≠ "" ∧ t ≠ "" ∧ action ≠ "" then
        some { callId := callId, «from» := f, «to» := t, action := action,
               ts := ts, msgTimestamp := none, rawLog := some logLine }
      else none
  | _, _, _, _, _ => none

/-! ### Line qualification and the scan loop (SignalParser.ts lines 308-347) -/

/-- The signaling-call marker (`'rtcCallWithAgora'`). -/
def signalMarker : String := "rtcCallWithAgora"

/-- The command-payload marker
(`'contents : [ { contenttype : COMMAND, action : rtcCall } ]'`). -/
def commandMarker : String :=
  "contents : [ \x7b contenttype : COMMAND, action : rtcCall \x7d ]"

/-- The text-payload marker (`'contenttype : TEXT'`). -/
def textContentMarker : String := "contenttype : TEXT"

/-- The invite action literal used by the scan loop
(`'key : action, type : 7, value : invite'`). -/
def inviteKeyMarker : String := "key : action, type : 7, value : invite"

/-- The braced invite-action marker used by classification
(`'{ key : action, type : 7, value : invite }'`). -/
def inviteActionMarker : String :=
  "\x7b key : action, type : 7, value : invite \x7d"

/-- The qualification test of `parseLogFile` (line 316): contains the
signaling-call marker, and either the command-payload marker or both
text-payload markers. -/
def lineQualifies (line : String) : Bool :=
  strIncludes line signalMarker &&
    (strIncludes line commandMarker ||
      (strIncludes line textContentMarker && strIncludes line inviteKeyMarker))

/-- The event a line contributes, if any: qualification followed by full
field extraction. -/
def parsedEventOfLine (line : String) : Option ParsedLogInfo :=
  if lineQualifies line then extractLogInfo line else none

/-- Store updates of the scan loop body (lines 323-331): push onto
`rtcCallLogs`, create the session on first sight of its `callId`, append
the event to its session. -/
def addParsedEvent (st : ParserState) (info : ParsedLogInfo) : ParserState :=
  let m := st.callIdToLogsMap
  let m1 := if (alFind m info.callId).isSome then m else alSet m info.callId []
  let prev := (alFind m1 info.callId).getD []
  { st with rtcCallLogs := st.rtcCallLogs ++ [info],
            callIdToLogsMap := alSet m1 info.callId (prev ++ [info]) }

/-- One iteration of the scan loop over lines. -/
def processLine (st : ParserState) (line : String) : ParserState :=
  if lineQualifies line then
    match extractLogInfo line with
    | some info => addParsedEvent st info
    | none => st
  else st

/-! ### Classification (SignalParser.ts lines 158-190, 279-301) -/

/-- The two marker tests of `extractCallType` (lines 160-161). -/
def hasInviteMarkers (logLine : String) : Bool :=
  strIncludes logLine inviteActionMarker && strIncludes logLine textContentMarker

/-- `/{ key : type, type : \d+, value : (\d+) }/` (line 163). -/
def typePattern : List RTok :=
  litToks "\x7b key : type, type : " ++ [RTok.digits] ++
    litToks ", value : " ++ [RTok.capDigits] ++ litToks " \x7d"

/-- The nested numeric `type` value of an invite line, if extractable. -/
def nestedTypeValue (logLine : String) : Option Nat :=
  (regexFirstCapture typePattern logLine).map digitsToNat

/-- `SignalParser.extractCallType` (line 158). -/
def extractCallType (logLine : String) : Option CallType :=
  if hasInviteMarkers logLine then
    match nestedTypeValue logLine with
    | some typeValue =>
        some (if typeValue ≤ 1 then CallType.oneToOne else CallType.group)
    | none => none
  else none

/-- `SignalParser.classifyCall` (line 179), as the value stored into
`callTypeMap`: the first event of the session (in storage order) for
which `extractCallType` succeeds decides; otherwise `unknown`. -/
def classifyCall : List ParsedLogInfo → CallType
  | [] => CallType.unknown
  | logInfo :: rest =>
      match extractCallType (logInfo.rawLog.getD "") with
      | some callType => callType
      | none => classifyCall rest

/-- Insert `(callId, logs)` into the partition selected by the
classification result (the `targetMap.set` of line 294-299). -/
def pushPartition (st : ParserState) (ty : CallType) (callId : String)
    (logs : List ParsedLogInfo) : ParserState :=
  match ty with
  | CallType.oneToOne =>
      { st with oneToOneCallMap := alSet st.oneToOneCallMap callId logs }
  | CallType.group =>
      { st with groupCallMap := alSet st.groupCallMap callId logs }
  | CallType.unknown =>
      { st with unknownCallMap := alSet st.unknownCallMap callId logs }

/-- The body of the `forEach` in `reclassifyAllCalls` (lines 286-300):
classify the session if it is not yet classified, then place it into the
partition named by its (now present) classification. -/
def reclassStep (st : ParserState) (entry : String × List ParsedLogInfo) :
    ParserState :=
  let st1 := if (alFind st.callTypeMap entry.1).isSome then st
             else { st with
                      callTypeMap :=
                        alSet st.callTypeMap entry.1 (classifyCall entry.2) }
  pushPartition st1 ((alFind st1.callTypeMap entry.1).getD CallType.unknown)
    entry.1 entry.2

/-- `SignalParser.reclassifyAllCalls` (line 279): clear the three
partitions, then sweep the session map. -/
def reclassifyAllCalls (st : ParserState) : ParserState :=
  let cleared := { st with oneToOneCallMap := [], groupCallMap := [],
                           unknownCallMap := [] }
  st.callIdToLogsMap.foldl reclassStep cleared

/-! ### Statistics and structured export (SignalParser.ts lines 229-274) -/

/-- The aggregate returned by `getCallTypeStatistics`. -/
structure CallTypeStatistics where
  total : Nat
  oneToOne : Nat
  group : Nat
  unknown : Nat
deriving DecidableEq

/-- `SignalParser.getCallTypeStatistics` (line 229): the four map sizes. -/
def getCallTypeStatistics (st : ParserState) : CallTypeStatistics :=
  { total := st.callIdToLogsMap.length
    oneToOne := st.oneToOneCallMap.length
    group := st.groupCallMap.length
    unknown := st.unknownCallMap.length }

/-- One element of the exported `logs` array (line 257). -/
structure ExportLogEntry where
  callId : String
  «from» : String
  «to» : String
  action : String
  ts : Nat
deriving DecidableEq

/-- One element of the exported `allCalls` array (line 253). -/
structure ExportCallEntry where
  callId : String
  type : CallType
  logsCount : Nat
  logs : List ExportLogEntry
deriving DecidableEq

/-- The `exportData` object written by `exportToJson` (line 251). -/
structure ExportData where
  statistics : CallTypeStatistics
  allCalls : List ExportCallEntry
deriving DecidableEq

/-- The structured snapshot assembled by `exportToJson` (lines 251-265);
the file write is I/O outside the core. -/
def exportStructured (st : ParserState) : ExportData :=
  { statistics := getCallTypeStatistics st
    allCalls := st.callIdToLogsMap.map (fun entry =>
      { callId := entry.1
        type := (alFind st.callTypeMap entry.1).getD CallType.unknown
        logsCount := entry.2.length
        logs := entry.2.map (fun l =>
          { callId := l.callId, «from» := l.«from», «to» := l.«to»,
            action := l.action, ts := l.ts }) }) }

/-- The scan loop of `parseLogFile` over the split lines. -/
def scanLogLines (st : ParserState) (lines : List String) : ParserState :=
  lines.foldl processLine st

/-- `content.split('\\n')`, written structurally so that it evaluates
inside the kernel. -/
def splitLinesAux (cur : List Char) : List Char → List String
  | [] => [String.mk cur.reverse]
  | c :: cs =>
      if c = '\n' then String.mk cur.reverse :: splitLinesAux [] cs
      else splitLinesAux (c :: cur) cs

/-- JS `content.split('\\n')`. -/
def splitLines (content : String) : List String :=
  splitLinesAux [] content.toList

/-- The pure core of `parseLogFile` (line 308) on a decoded text buffer:
split on newlines, scan every line, then reclassify. -/
def parseLogContent (content : String) : ParserState :=
  reclassifyAllCalls (scanLogLines emptyParserState (splitLines content))

/-! ### Diagram rendering (`Visualizer.ts` lines 790-864) -/

/-- The effective ordering and display key of an event: the JS expression
`log.msgTimestamp || log.ts` (lines 792-793 and 814), which falls back to
`ts` when `msgTimestamp` is absent or `0` (falsy). -/
def effTime (l : ParsedLogInfo) : Nat :=
  match l.msgTimestamp with
  | some t => if t = 0 then l.ts else t
  | none => l.ts

/-- The label of the displayed time: the JS conditional
`log.msgTimestamp ? 'messageTime' : '信令内time'` (line 815). -/
def timeDescOf (l : ParsedLogInfo) : String :=
  match l.msgTimestamp with
  | some t => if t = 0 then "信令内time" else "messageTime"
  | none => "信令内time"

/-- Comparison used to model the stable sort: lexicographic on
(effective time, original position). -/
def lexLe (a b : Nat × ParsedLogInfo) : Prop :=
  effTime a.2 < effTime b.2 ∨ (effTime a.2 = effTime b.2 ∧ a.1 ≤ b.1)

instance : DecidableRel lexLe := fun a b => by
  unfold lexLe
  exact inferInstance

/-- `[...logs].sort((a, b) => t1 - t2)` on position-tagged events.  JS
`Array.prototype.sort` is stable, so its output is the unique permutation
sorted lexicographically by (comparator key, original position); that
permutation is computed here by insertion sort under `lexLe`. -/
def sortIndexed (logs : List ParsedLogInfo) : List (Nat × ParsedLogInfo) :=
  List.insertionSort lexLe logs.enum

/-- The `sortedLogs` array of `generateMermaidForCall` (line 791). -/
def sortCallLogs (logs : List ParsedLogInfo) : List ParsedLogInfo :=
  (sortIndexed logs).map Prod.snd

/-- One rendered interaction (line 816), with the timestamp formatter
`fmt` abstract (it renders local time). -/
def interactionLine (fmt : Nat → String) (l : ParsedLogInfo) : String :=
  "  " ++ l.«from» ++ "->>" ++ l.«to» ++ ": " ++ l.action ++ " (" ++
    timeDescOf l ++ ": " ++ fmt (effTime l) ++ ")\n"

/-- `Set.add` on the participant set: JS `Set` keeps first-insertion
order. -/
def addParticipant (ps : List String) (p : String) : List String :=
  if p ∈ ps then ps else ps ++ [p]

/-- The participant set of lines 801-805: all `from`/`to` values in
order of first appearance. -/
def participantsOf (logs : List ParsedLogInfo) : List String :=
  logs.foldl (fun ps l => addParticipant (addParticipant ps l.«from») l.«to») []

/-- The placeholder diagram for an empty session (line 796). -/
def noDataDiagram : String := "sequenceDiagram\n    Note over NoData: 无日志数据"

/-- `Visualizer.generateMermaidForCall` (line 790), parameterized by the
local-time formatter `fmt`. -/
def generateMermaidForCall (fmt : Nat → String)
    (logs : List ParsedLogInfo) : String :=
  let sortedLogs := sortCallLogs logs
  if sortedLogs.length = 0 then noDataDiagram
  else
    "sequenceDiagram\n" ++
      String.join ((participantsOf sortedLogs).map
        (fun p => "  participant " ++ p ++ "\n")) ++
      String.join (sortedLogs.map (interactionLine fmt))

/-- `Visualizer.generateMermaid` (line 826): all sessions' diagrams, each
prefixed by a comment naming its `callId`. -/
def generateMermaid (fmt : Nat → String) (st : ParserState) : String :=
  String.join (st.callIdToLogsMap.map (fun entry =>
    "\n%% 通话ID: " ++ entry.1 ++ "\n" ++
      generateMermaidForCall fmt entry.2 ++ "\n"))

/-- `Visualizer.writeToFile` (line 845) as its pure content selection:
the two recognized formats pick a generated document, anything else
throws `不支持的格式: ${format}` before any output is produced.  The two
generated documents are parameters because `generateHtml` is a
presentation-only template around the same data. -/
def writeToFile (htmlContent mermaidContent : String)
    (format : String) : Except String String :=
  if format = "html" then Except.ok htmlContent
  else if format = "mermaid" then Except.ok mermaidContent
  else Except.error ("不支持的格式: " ++ format)

/-! ### Spec-side definitions used to compare against the code -/

/-- The spec's effective time, read literally: `messageTimestamp` if
present, else `timestamp` (spec §4.4). -/
def specEffTime (l : ParsedLogInfo) : Nat :=
  l.msgTimestamp.getD l.ts

/-- Classification as the claim states it: the first event carrying both
invite markers decides, and a session is `unknown` when the nested field
cannot be extracted from that same line. -/
def specClassifyClaimed : List ParsedLogInfo → CallType
  | [] => CallType.unknown
  | l :: rest =>
      if hasInviteMarkers (l.rawLog.getD "") then
        match nestedTypeValue (l.rawLog.getD "") with
        | some v => if v ≤ 1 then CallType.oneToOne else CallType.group
        | none => CallType.unknown
      else specClassifyClaimed rest

/-- Classification as amended: the first event carrying both invite
markers and an extractable nested type decides; marker events whose
nested field fails to extract are skipped. -/
def specClassifyAmended : List ParsedLogInfo → CallType
  | [] => CallType.unknown
  | l :: rest =>
      if hasInviteMarkers (l.rawLog.getD "") then
        match nestedTypeValue (l.rawLog.getD "") with
        | some v => if v ≤ 1 then CallType.oneToOne else CallType.group
        | none => specClassifyAmended rest
      else specClassifyAmended rest

/-- Modelled from the spec: the secondary, independent extraction pass
for the outer `messageTimestamp` (spec §4.1).  The repository's canonical
fuller parser variant records it on the event (the Visualizer reads
`log.msgTimestamp`), but the `SignalParser.extractLogInfo` under `src/`
lacks the pass, so it is modelled as an arbitrary opportunistic extractor
`f` decorating an otherwise-complete event. -/
def extractLogInfoWithMsg (f : String → Option Nat)
    (logLine : String) : Option ParsedLogInfo :=
  match extractLogInfo logLine with
  | some info => some { info with msgTimestamp := f logLine }
  | none => none

/-! ### Concrete inputs used by witnesses and counterexamples -/

/-- A qualifying command-payload line for session `abc`. -/
def exLine1 : String :=
  "08:00:01 rtcCallWithAgora contents : [ \x7b contenttype : COMMAND, action : rtcCall \x7d ] chattype : chat, from : u1, to : u2, key : callId, type : 3, value : abc, key : action, type : 7, value : ask, key : ts, type : 2, value : 1000"

/-- A second qualifying line for the same session `abc`. -/
def exLine2 : String :=
  "08:00:02 rtcCallWithAgora contents : [ \x7b contenttype : COMMAND, action : rtcCall \x7d ] chattype : chat, from : u2, to : u1, key : callId, type : 3, value : abc, key : action, type : 7, value : answer, key : ts, type : 2, value : 2000"

/-- A two-line log buffer producing one session holding two events. -/
def exContent : String := exLine1 ++ "\n" ++ exLine2

/-- Raw text carrying both invite markers but no nested `type` field. -/
def c2raw1 : String :=
  "contenttype : TEXT \x7b key : action, type : 7, value : invite \x7d"

/-- Raw text carrying both invite markers and nested `type` value `0`. -/
def c2raw2 : String :=
  "contenttype : TEXT \x7b key : action, type : 7, value : invite \x7d \x7b key : type, type : 4, value : 0 \x7d"

/-- First event of the C2 counterexample session. -/
def c2e1 : ParsedLogInfo :=
  { callId := "c", «from» := "u1", «to» := "u2", action := "invite",
    ts := 1, msgTimestamp := none, rawLog := some c2raw1 }

/-- Second event of the C2 counterexample session. -/
def c2e2 : ParsedLogInfo :=
  { callId := "c", «from» := "u1", «to» := "u2", action := "invite",
    ts := 2, msgTimestamp := none, rawLog := some c2raw2 }

/-- An event whose `msgTimestamp` is present but `0` (falsy). -/
def c5eA : ParsedLogInfo :=
  { callId := "a", «from» := "u", «to» := "v", action := "x",
    ts := 100, msgTimestamp := some 0, rawLog := none }

/-- An event without `msgTimestamp` and a smaller `ts`. -/
def c5eB : ParsedLogInfo :=
  { callId := "a", «from» := "u", «to» := "v", action := "y",
    ts := 50, msgTimestamp := none, rawLog := none }

/-- A small store with two sessions, used to instantiate hypotheses. -/
def c3exState : ParserState :=
  { rtcCallLogs := [c2e1, c2e2]
    callIdToLogsMap := [("c", [c2e1, c2e2]), ("d", [])]
    oneToOneCallMap := []
    groupCallMap := []
    unknownCallMap := []
    callTypeMap := [] }

/-- The unsupported format of Scenario D. -/
def fmtXml : String := "xml"

/-- An arbitrary document content for instantiating `writeToFile`. -/
def emptyStr : String := ""

/-! ### Auxiliary notions used to state the properties -/

/-- Strict lexicographic order on position-tagged events: strictly
earlier effective time, or equal effective time and strictly earlier
original position. -/
def strictLex (a b : Nat × ParsedLogInfo) : Prop :=
  effTime a.2 < effTime b.2 ∨ (effTime a.2 = effTime b.2 ∧ a.1 < b.1)

/-- The three partitions of `st`, as one value. -/
def partsOf (st : ParserState) :
    List (String × List ParsedLogInfo) × List (String × List ParsedLogInfo) ×
      List (String × List ParsedLogInfo) :=
  (st.oneToOneCallMap, st.groupCallMap, st.unknownCallMap)

/-- The partition action of one reclassification step once every session
is classified in the fixed map `M`. -/
def partStep (M : List (String × CallType)) (st : ParserState)
    (entry : String × List ParsedLogInfo) : ParserState :=
  pushPartition st ((alFind M entry.1).getD CallType.unknown) entry.1 entry.2

/-- Partition invariant: the keys of the three partitions cover exactly
`done` and are pairwise disjoint. -/
def PartInv (st : ParserState) (done : List String) : Prop :=
  (∀ cid, (cid ∈ alKeys st.oneToOneCallMap ∨ cid ∈ alKeys st.groupCallMap ∨
      cid ∈ alKeys st.unknownCallMap) ↔ cid ∈ done)
  ∧ (∀ cid, ¬(cid ∈ alKeys st.oneToOneCallMap ∧ cid ∈ alKeys st.groupCallMap))
  ∧ (∀ cid, ¬(cid ∈ alKeys st.oneToOneCallMap ∧ cid ∈ alKeys st.unknownCallMap))
  ∧ (∀ cid, ¬(cid ∈ alKeys st.groupCallMap ∧ cid ∈ alKeys st.unknownCallMap))

/-! ### Association-list lemmas -/

theorem alFind_alSet_self {α : Type} (m : List (String × α)) (k : String)
    (v : α) : alFind (alSet m k v) k = some v := by
  induction m with
  | nil => simp [alSet, alFind]
  | cons e rest ih =>
      obtain ⟨k', v'⟩ := e
      by_cases h : k' = k
      · simp [alSet, alFind, h]
      · simp [alSet, alFind, h, ih]

theorem alFind_alSet_ne {α : Type} (m : List (String × α)) (k : String)
    (v : α) (c : String) (h : c ≠ k) :
    alFind (alSet m k v) c = alFind m c := by
  induction m with
  | nil => simp [alSet, alFind, Ne.symm h]
  | cons e rest ih =>
      obtain ⟨k', v'⟩ := e
      by_cases h2 : k' = k
      · subst h2
        simp [alSet, alFind, Ne.symm h]
      · simp only [alSet, if_neg h2, alFind]
        by_cases h3 : k' = c <;> simp [h3, ih]

theorem mem_alKeys_alSet {α : Type} (m : List (String × α)) (k : String)
    (v : α) (c : String) :
    c ∈ alKeys (alSet m k v) ↔ c ∈ alKeys m ∨ c = k := by
  induction m with
  | nil => simp [alSet, alKeys]
  | cons e rest ih =>
      obtain ⟨k', v'⟩ := e
      by_cases h : k' = k
      · subst h
        have e1 : alSet ((k', v') :: rest) k' v = (k', v) :: rest := by
          simp [alSet]
        rw [e1]
        simp only [alKeys, List.map_cons, List.mem_cons]
        tauto
      · have e2 : alSet ((k', v') :: rest) k v = (k', v') :: alSet rest k v := by
          simp [alSet, h]
        rw [e2]
        simp only [alKeys, List.map_cons, List.mem_cons]
        simp only [alKeys] at ih
        rw [ih]
        tauto

/-! ### C7, C8, C9, C10 -/

/-- C7: for every format string other than the two recognized values
(`html`, the rich interactive document, and `mermaid`, the plain diagram
markup), `writeToFile` rejects with an error naming the unsupported
value and selects no content at all — no default or fallback format is
substituted. -/
theorem c7_unsupported_format (htmlContent mermaidContent format : String)
    (h1 : format ≠ "html") (h2 : format ≠ "mermaid") :
    writeToFile htmlContent mermaidContent format =
      Except.error ("不支持的格式: " ++ format) := by
  unfold writeToFile
  simp [h1, h2]

theorem c7_unsupported_format_witness :
    fmtXml ≠ "html" ∧ fmtXml ≠ "mermaid" ∧
      writeToFile emptyStr emptyStr fmtXml =
        Except.error ("不支持的格式: xml") := by
  refine ⟨by decide, by decide, ?_⟩
  have h := c7_unsupported_format emptyStr emptyStr fmtXml (by decide) (by decide)
  rw [h]
  have hs : "不支持的格式: " ++ fmtXml = "不支持的格式: xml" := by decide
  rw [hs]

/-- C8: a session with zero events renders as the single no-data
placeholder interaction, never as an empty diagram body. -/
theorem c8_empty_session_placeholder (fmt : Nat → String) :
    generateMermaidForCall fmt [] = noDataDiagram := rfl

/-- C9 (secondary extraction pass modelled from the spec): for every
opportunistic extractor `f`, the decorated extraction records `f`'s value
as the event's optional `msgTimestamp` and succeeds exactly when the
primary five-field extraction succeeds — the secondary pass has no effect
on whether the event is produced. -/
theorem c9_msg_timestamp_opportunistic (f : String → Option Nat)
    (logLine : String) :
    extractLogInfoWithMsg f logLine =
      (extractLogInfo logLine).map
        (fun info => { info with msgTimestamp := f logLine })
    ∧ (extractLogInfoWithMsg f logLine).isSome =
        (extractLogInfo logLine).isSome := by
  unfold extractLogInfoWithMsg
  cases extractLogInfo logLine <;> simp

/-- C10: an event whose `msgTimestamp` equals `0` (falsy) is treated by
the renderer exactly like an event with no `msgTimestamp`: the effective
sort key, the displayed-time label and the whole rendered interaction all
fall back to the in-signal `ts`. -/
theorem c10_zero_msg_timestamp (fmt : Nat → String) (l : ParsedLogInfo) :
    effTime { l with msgTimestamp := some 0 } = l.ts
    ∧ effTime { l with msgTimestamp := some 0 } =
        effTime { l with msgTimestamp := none }
    ∧ timeDescOf { l with msgTimestamp := some 0 } =
        timeDescOf { l with msgTimestamp := none }
    ∧ interactionLine fmt { l with msgTimestamp := some 0 } =
        interactionLine fmt { l with msgTimestamp := none } := by
  simp [effTime, timeDescOf, interactionLine]

/-! ### C2 -/

/-- C2 (amended): classification scans the session's events in storage
order and the first event whose raw text carries both invite markers and
an extractable nested `type` decides (`≤ 1` one-to-one, `> 1` group); a
marker event whose nested field cannot be extracted is skipped, and the
session is `unknown` only when no event decides. -/
theorem c2_classify_amended (logs : List ParsedLogInfo) :
    classifyCall logs = specClassifyAmended logs := by
  induction logs with
  | nil => rfl
  | cons l rest ih =>
      simp only [classifyCall, specClassifyAmended, extractCallType]
      cases h : hasInviteMarkers (l.rawLog.getD "") with
      | false => simp [h, ih]
      | true =>
          cases hn : nestedTypeValue (l.rawLog.getD "") <;> simp [h, hn, ih]

/-- C2 counterexample: in the session `[c2e1, c2e2]` the first event
carrying both invite markers is `c2e1`, whose nested `type` cannot be
extracted, so the claim classifies the session `unknown`; the code skips
`c2e1` and classifies `oneToOne` from `c2e2`. -/
theorem c2_counterexample :
    classifyCall [c2e1, c2e2] = CallType.oneToOne
    ∧ specClassifyClaimed [c2e1, c2e2] = CallType.unknown
    ∧ hasInviteMarkers (c2e1.rawLog.getD "") = true
    ∧ nestedTypeValue (c2e1.rawLog.getD "") = none := by
  refine ⟨by decide, by decide, by decide, by decide⟩

/-! ### C1 -/

/-- C1 (amended): the structured snapshot exports exactly one entry per
session, so the number of exported sessions equals `statistics.total`;
summing the per-session `logsCount` fields instead yields the number of
stored events (the per-session list lengths), not `statistics.total`. -/
theorem c1_export_amended (st : ParserState) :
    (exportStructured st).allCalls.length =
      (exportStructured st).statistics.total
    ∧ ((exportStructured st).allCalls.map (fun e => e.logsCount)).sum =
        (st.callIdToLogsMap.map (fun entry => entry.2.length)).sum := by
  unfold exportStructured getCallTypeStatistics
  constructor
  · simp
  · simp only [List.map_map]
    rfl

set_option maxRecDepth 100000 in
/-- C1 counterexample: parsing `exContent` yields one session holding two
events, so summing the exported per-session `logsCount` gives `2` while
`statistics.total` is `1`. -/
theorem c1_counterexample :
    ((exportStructured (parseLogContent exContent)).allCalls.map
        (fun e => e.logsCount)).sum = 2
    ∧ (exportStructured (parseLogContent exContent)).statistics.total = 1 := by
  refine ⟨by decide, by decide⟩

/-! ### Captured groups are never empty -/

theorem stringMk_ne_empty (cs : List Char) (h : cs ≠ []) :
    String.mk cs ≠ "" := by
  intro he
  exact h (congrArg String.data he)

theorem matchToksAux_ne_empty :
    ∀ (ts : List RTok) (cs : List Char) (cap : Option String),
      (∀ s, cap = some s → s ≠ "") →
      ∀ s, matchToksAux ts cs cap = some s → s ≠ "" := by
  intro ts
  induction ts with
  | nil =>
      intro cs cap hcap s h
      exact hcap s h
  | cons t rest ih =>
      intro cs cap hcap s h
      cases t with
      | lit c =>
          cases cs with
          | nil => simp [matchToksAux] at h
          | cons d ds =>
              simp only [matchToksAux] at h
              by_cases hd : d = c
              · rw [if_pos hd] at h
                exact ih ds cap hcap s h
              · rw [if_neg hd] at h
                cases h
      | ws =>
          simp only [matchToksAux] at h
          exact ih _ cap hcap s h
      | word =>
          simp only [matchToksAux] at h
          split at h
          · cases h
          · exact ih _ cap hcap s h
      | wordDash =>
          simp only [matchToksAux] at h
          split at h
          · cases h
          · exact ih _ cap hcap s h
      | digits =>
          simp only [matchToksAux] at h
          split at h
          · cases h
          · exact ih _ cap hcap s h
      | capWord =>
          simp only [matchToksAux] at h
          split at h
          · cases h
          · next hrun =>
              refine ih _ _ ?_ s h
              intro s' hs'
              cases hs'
              exact stringMk_ne_empty _ (by
                intro hnil
                exact hrun (by simp [hnil]))
      | capDigits =>
          simp only [matchToksAux] at h
          split at h
          · cases h
          · next hrun =>
              refine ih _ _ ?_ s h
              intro s' hs'
              cases hs'
              exact stringMk_ne_empty _ (by
                intro hnil
                exact hrun (by simp [hnil]))

theorem searchToks_ne_empty :
    ∀ (ts : List RTok) (cs : List Char) (s : String),
      searchToks ts cs = some s → s ≠ "" := by
  intro ts cs
  induction cs with
  | nil =>
      intro s h
      simp only [searchToks] at h
      exact matchToksAux_ne_empty ts [] none (by simp) s h
  | cons c cs ih =>
      intro s h
      simp only [searchToks] at h
      cases hm : matchToksAux ts (c :: cs) none with
      | some r =>
          rw [hm] at h
          cases h
          exact matchToksAux_ne_empty ts (c :: cs) none (by simp) _ hm
      | none =>
          rw [hm] at h
          exact ih s h

theorem extractCallId_ne_empty (line : String) (s : String)
    (h : extractCallId line = some s) : s ≠ "" :=
  searchToks_ne_empty _ _ _ h

theorem extractFrom_ne_empty (line : String) (s : String)
    (h : extractFrom line = some s) : s ≠ "" :=
  searchToks_ne_empty _ _ _ h

theorem extractTo_ne_empty (line : String) (s : String)
    (h : extractTo line = some s) : s ≠ "" :=
  searchToks_ne_empty _ _ _ h

theorem extractAction_ne_empty (line : String) (s : String)
    (h : extractAction line = some s) : s ≠ "" :=
  searchToks_ne_empty _ _ _ h

/-! ### C6 -/

/-- C6: a line contributes a parsed event exactly when it qualifies (the
signaling-call marker plus either the command-payload marker or the
text-invite markers) and all five of `callId`, `from`, `to`, `action`,
`ts` extract from it; on any other line the scan-loop body leaves the
whole store — sessions included — unchanged and the scan continues. -/
theorem c6_line_scan (st : ParserState) (line : String) :
    (parsedEventOfLine line).isSome =
      (lineQualifies line && (extractCallId line).isSome &&
        (extractFrom line).isSome && (extractTo line).isSome &&
        (extractAction line).isSome && (extractTs line).isSome)
    ∧ processLine st line =
        (match parsedEventOfLine line with
         | some info => addParsedEvent st info
         | none => st) := by
  constructor
  · by_cases hq : lineQualifies line = true
    · simp only [parsedEventOfLine, hq, if_true, Bool.true_and]
      cases h1 : extractCallId line with
      | none => simp [extractLogInfo, h1]
      | some a =>
          cases h2 : extractFrom line with
          | none => simp [extractLogInfo, h1, h2]
          | some b =>
              cases h3 : extractTo line with
              | none => simp [extractLogInfo, h1, h2, h3]
              | some c =>
                  cases h4 : extractAction line with
                  | none => simp [extractLogInfo, h1, h2, h3, h4]
                  | some d =>
                      cases h5 : extractTs line with
                      | none => simp [extractLogInfo, h1, h2, h3, h4, h5]
                      | some tsv =>
                          have na : a ≠ "" := extractCallId_ne_empty line a h1
                          have nb : b ≠ "" := extractFrom_ne_empty line b h2
                          have nc : c ≠ "" := extractTo_ne_empty line c h3
                          have nd : d ≠ "" := extractAction_ne_empty line d h4
                          simp [extractLogInfo, h1, h2, h3, h4, h5,
                            na, nb, nc, nd]
    · rw [Bool.not_eq_true] at hq
      simp [parsedEventOfLine, hq]
  · by_cases hq : lineQualifies line = true
    · simp only [processLine, parsedEventOfLine, hq, if_true]
    · rw [Bool.not_eq_true] at hq
      simp [processLine, parsedEventOfLine, hq]

/-! ### C5 -/

instance : IsTotal (Nat × ParsedLogInfo) lexLe := ⟨by
  intro a b
  unfold lexLe
  rcases Nat.lt_trichotomy (effTime a.2) (effTime b.2) with h | h | h
  · exact Or.inl (Or.inl h)
  · rcases Nat.le_total a.1 b.1 with hi | hi
    · exact Or.inl (Or.inr ⟨h, hi⟩)
    · exact Or.inr (Or.inr ⟨h.symm, hi⟩)
  · exact Or.inr (Or.inl h)⟩

instance : IsTrans (Nat × ParsedLogInfo) lexLe := ⟨by
  intro a b c hab hbc
  unfold lexLe at hab hbc ⊢
  rcases hab with h1 | ⟨e1, i1⟩
  · rcases hbc with h2 | ⟨e2, i2⟩
    · exact Or.inl (h1.trans h2)
    · exact Or.inl (e2 ▸ h1)
  · rcases hbc with h2 | ⟨e2, i2⟩
    · exact Or.inl (e1 ▸ h2)
    · exact Or.inr ⟨e1.trans e2, i1.trans i2⟩⟩

/-- C5 (amended): the rendered interaction sequence is sorted
non-decreasingly by the code's effective time (`msgTimestamp` when
present and non-zero, else `ts`); events with equal effective time keep
their original storage order (strictly increasing original positions),
and the output is a permutation of the session's events. -/
theorem c5_render_order_amended (logs : List ParsedLogInfo) :
    List.Pairwise strictLex (sortIndexed logs)
    ∧ (sortCallLogs logs).Perm logs := by
  have hsorted : List.Pairwise lexLe (sortIndexed logs) :=
    List.sorted_insertionSort lexLe logs.enum
  have hperm : (sortIndexed logs).Perm logs.enum :=
    List.perm_insertionSort lexLe logs.enum
  constructor
  · have hnodup : (List.map Prod.fst (sortIndexed logs)).Nodup :=
      ((hperm.map Prod.fst).symm).nodup (List.nodup_enum_map_fst logs)
    have hpne : List.Pairwise (fun a b : Nat × ParsedLogInfo => a.1 ≠ b.1)
        (sortIndexed logs) := List.pairwise_map.mp hnodup
    refine (hsorted.and hpne).imp ?_
    intro a b hab
    obtain ⟨hl, hne⟩ := hab
    unfold lexLe at hl
    unfold strictLex
    rcases hl with h | ⟨he, hi⟩
    · exact Or.inl h
    · exact Or.inr ⟨he, lt_of_le_of_ne hi hne⟩
  · have hm := hperm.map Prod.snd
    rw [List.enum_map_snd] at hm
    exact hm

/-- C5 counterexample: with `c5eA` (`msgTimestamp = some 0`, `ts = 100`)
stored before `c5eB` (no `msgTimestamp`, `ts = 50`), the renderer sorts
`c5eB` first, and the output is not non-decreasing in the claim's
effective time (`messageTimestamp` whenever present, else `timestamp`),
because `0` is falsy in the code's fallback. -/
theorem c5_counterexample :
    ¬ List.Pairwise (fun a b => specEffTime a ≤ specEffTime b)
        (sortCallLogs [c5eA, c5eB]) := by
  have hs : sortCallLogs [c5eA, c5eB] = [c5eB, c5eA] := by decide
  rw [hs]
  intro hp
  have h1 : specEffTime c5eB ≤ specEffTime c5eA :=
    (List.pairwise_cons.mp hp).1 _ (List.mem_cons_self _ _)
  revert h1
  decide

/-! ### C3: the reclassification sweep partitions the session set -/

theorem reclassifyAllCalls_eq (st : ParserState) :
    reclassifyAllCalls st = st.callIdToLogsMap.foldl reclassStep
      { st with oneToOneCallMap := [], groupCallMap := [],
                unknownCallMap := [] } := rfl

theorem PartInv_ctm (st : ParserState) (M : List (String × CallType))
    (done : List String) :
    PartInv { st with callTypeMap := M } done ↔ PartInv st done := by
  simp [PartInv]

theorem pushPartition_PartInv (st : ParserState) (ty : CallType) (cid : String)
    (logs : List ParsedLogInfo) (done : List String)
    (hinv : PartInv st done) (hfresh : cid ∉ done) :
    PartInv (pushPartition st ty cid logs) (done ++ [cid]) := by
  obtain ⟨hcov, h12, h13, h23⟩ := hinv
  have hdone1 : ∀ x, x ∈ alKeys st.oneToOneCallMap → x ∈ done :=
    fun x hx => (hcov x).mp (Or.inl hx)
  have hdone2 : ∀ x, x ∈ alKeys st.groupCallMap → x ∈ done :=
    fun x hx => (hcov x).mp (Or.inr (Or.inl hx))
  have hdone3 : ∀ x, x ∈ alKeys st.unknownCallMap → x ∈ done :=
    fun x hx => (hcov x).mp (Or.inr (Or.inr hx))
  have hmemapp : ∀ x : String, x ∈ done ++ [cid] ↔ x ∈ done ∨ x = cid := by
    intro x
    simp [List.mem_append]
  cases ty with
  | oneToOne =>
      refine ⟨fun c => ?_, fun c => ?_, fun c => ?_, fun c => ?_⟩
      · constructor
        · rintro (h1 | h2 | h3)
          · rcases (mem_alKeys_alSet _ _ _ c).mp h1 with h | h
            · exact (hmemapp c).mpr (Or.inl ((hcov c).mp (Or.inl h)))
            · exact (hmemapp c).mpr (Or.inr h)
          · exact (hmemapp c).mpr (Or.inl ((hcov c).mp (Or.inr (Or.inl h2))))
          · exact (hmemapp c).mpr (Or.inl ((hcov c).mp (Or.inr (Or.inr h3))))
        · intro hd
          rcases (hmemapp c).mp hd with hd' | hd'
          · rcases (hcov c).mpr hd' with h | h | h
            · exact Or.inl ((mem_alKeys_alSet _ _ _ c).mpr (Or.inl h))
            · exact Or.inr (Or.inl h)
            · exact Or.inr (Or.inr h)
          · exact Or.inl ((mem_alKeys_alSet _ _ _ c).mpr (Or.inr hd'))
      · rintro ⟨h1, h2⟩
        rcases (mem_alKeys_alSet _ _ _ c).mp h1 with h | h
        · exact h12 c ⟨h, h2⟩
        · exact hfresh (hdone2 cid (h ▸ h2))
      · rintro ⟨h1, h3⟩
        rcases (mem_alKeys_alSet _ _ _ c).mp h1 with h | h
        · exact h13 c ⟨h, h3⟩
        · exact hfresh (hdone3 cid (h ▸ h3))
      · exact h23 c
  | group =>
      refine ⟨fun c => ?_, fun c => ?_, fun c => ?_, fun c => ?_⟩
      · constructor
        · rintro (h1 | h2 | h3)
          · exact (hmemapp c).mpr (Or.inl ((hcov c).mp (Or.inl h1)))
          · rcases (mem_alKeys_alSet _ _ _ c).mp h2 with h | h
            · exact (hmemapp c).mpr (Or.inl ((hcov c).mp (Or.inr (Or.inl h))))
            · exact (hmemapp c).mpr (Or.inr h)
          · exact (hmemapp c).mpr (Or.inl ((hcov c).mp (Or.inr (Or.inr h3))))
        · intro hd
          rcases (hmemapp c).mp hd with hd' | hd'
          · rcases (hcov c).mpr hd' with h | h | h
            · exact Or.inl h
            · exact Or.inr (Or.inl ((mem_alKeys_alSet _ _ _ c).mpr (Or.inl h)))
            · exact Or.inr (Or.inr h)
          · exact Or.inr (Or.inl ((mem_alKeys_alSet _ _ _ c).mpr (Or.inr hd')))
      · rintro ⟨h1, h2⟩
        rcases (mem_alKeys_alSet _ _ _ c).mp h2 with h | h
        · exact h12 c ⟨h1, h⟩
        · exact hfresh (hdone1 cid (h ▸ h1))
      · exact h13 c
      · rintro ⟨h2, h3⟩
        rcases (mem_alKeys_alSet _ _ _ c).mp h2 with h | h
        · exact h23 c ⟨h, h3⟩
        · exact hfresh (hdone3 cid (h ▸ h3))
  | unknown =>
      refine ⟨fun c => ?_, fun c => ?_, fun c => ?_, fun c => ?_⟩
      · constructor
        · rintro (h1 | h2 | h3)
          · exact (hmemapp c).mpr (Or.inl ((hcov c).mp (Or.inl h1)))
          · exact (hmemapp c).mpr (Or.inl ((hcov c).mp (Or.inr (Or.inl h2))))
          · rcases (mem_alKeys_alSet _ _ _ c).mp h3 with h | h
            · exact (hmemapp c).mpr (Or.inl ((hcov c).mp (Or.inr (Or.inr h))))
            · exact (hmemapp c).mpr (Or.inr h)
        · intro hd
          rcases (hmemapp c).mp hd with hd' | hd'
          · rcases (hcov c).mpr hd' with h | h | h
            · exact Or.inl h
            · exact Or.inr (Or.inl h)
            · exact Or.inr (Or.inr ((mem_alKeys_alSet _ _ _ c).mpr (Or.inl h)))
          · exact Or.inr (Or.inr ((mem_alKeys_alSet _ _ _ c).mpr (Or.inr hd')))
      · exact h12 c
      · rintro ⟨h1, h3⟩
        rcases (mem_alKeys_alSet _ _ _ c).mp h3 with h | h
        · exact h13 c ⟨h1, h⟩
        · exact hfresh (hdone1 cid (h ▸ h1))
      · rintro ⟨h2, h3⟩
        rcases (mem_alKeys_alSet _ _ _ c).mp h3 with h | h
        · exact h23 c ⟨h2, h⟩
        · exact hfresh (hdone2 cid (h ▸ h2))

theorem reclassStep_PartInv (st : ParserState)
    (e : String × List ParsedLogInfo) (done : List String)
    (hinv : PartInv st done) (hfresh : e.1 ∉ done) :
    PartInv (reclassStep st e) (done ++ [e.1]) := by
  simp only [reclassStep]
  by_cases h : (alFind st.callTypeMap e.1).isSome = true
  · simp only [h, if_true]
    exact pushPartition_PartInv _ _ e.1 e.2 done hinv hfresh
  · rw [Bool.not_eq_true] at h
    simp only [h, Bool.false_eq_true, if_false]
    exact pushPartition_PartInv _ _ e.1 e.2 done
      ((PartInv_ctm st _ done).mpr hinv) hfresh

theorem foldl_reclassStep_PartInv :
    ∀ (es : List (String × List ParsedLogInfo)) (st : ParserState)
      (done : List String),
      PartInv st done → (done ++ alKeys es).Nodup →
      PartInv (es.foldl reclassStep st) (done ++ alKeys es) := by
  intro es
  induction es with
  | nil =>
      intro st done hinv hnd
      simpa [alKeys] using hinv
  | cons e rest ih =>
      intro st done hinv hnd
      have hkeys : alKeys (e :: rest) = e.1 :: alKeys rest := rfl
      rw [hkeys] at hnd ⊢
      have hfresh : e.1 ∉ done := by
        rcases List.nodup_append.mp hnd with ⟨_, _, hdisj⟩
        intro hmem
        exact hdisj hmem (List.mem_cons_self _ _)
      have hstep := reclassStep_PartInv st e done hinv hfresh
      have hnd2 : ((done ++ [e.1]) ++ alKeys rest).Nodup := by
        simpa [List.append_assoc] using hnd
      have hmain := ih (reclassStep st e) (done ++ [e.1]) hstep hnd2
      simpa [List.append_assoc] using hmain

theorem reclassStep_callIdToLogsMap (st : ParserState)
    (e : String × List ParsedLogInfo) :
    (reclassStep st e).callIdToLogsMap = st.callIdToLogsMap := by
  simp only [reclassStep]
  by_cases h : (alFind st.callTypeMap e.1).isSome = true
  · simp only [h, if_true]
    generalize (alFind st.callTypeMap e.1).getD CallType.unknown = ty
    cases ty <;> rfl
  · rw [Bool.not_eq_true] at h
    simp only [h, Bool.false_eq_true, if_false]
    generalize (alFind (alSet st.callTypeMap e.1 (classifyCall e.2)) e.1).getD
      CallType.unknown = ty
    cases ty <;> rfl

theorem reclassStep_rtcCallLogs (st : ParserState)
    (e : String × List ParsedLogInfo) :
    (reclassStep st e).rtcCallLogs = st.rtcCallLogs := by
  simp only [reclassStep]
  by_cases h : (alFind st.callTypeMap e.1).isSome = true
  · simp only [h, if_true]
    generalize (alFind st.callTypeMap e.1).getD CallType.unknown = ty
    cases ty <;> rfl
  · rw [Bool.not_eq_true] at h
    simp only [h, Bool.false_eq_true, if_false]
    generalize (alFind (alSet st.callTypeMap e.1 (classifyCall e.2)) e.1).getD
      CallType.unknown = ty
    cases ty <;> rfl

theorem foldl_reclassStep_callIdToLogsMap :
    ∀ (es : List (String × List ParsedLogInfo)) (st : ParserState),
      (es.foldl reclassStep st).callIdToLogsMap = st.callIdToLogsMap := by
  intro es
  induction es with
  | nil => intro st; rfl
  | cons e rest ih =>
      intro st
      rw [List.foldl_cons, ih, reclassStep_callIdToLogsMap]

theorem foldl_reclassStep_rtcCallLogs :
    ∀ (es : List (String × List ParsedLogInfo)) (st : ParserState),
      (es.foldl reclassStep st).rtcCallLogs = st.rtcCallLogs := by
  intro es
  induction es with
  | nil => intro st; rfl
  | cons e rest ih =>
      intro st
      rw [List.foldl_cons, ih, reclassStep_rtcCallLogs]

/-- C3: after `reclassifyAll`, the keys of the three classification
partitions are pairwise disjoint and their union is exactly the set of
sessions in the store: every session lands in exactly one partition,
none is lost or double-counted. -/
theorem c3_reclassify_partitions (st : ParserState)
    (h : (alKeys st.callIdToLogsMap).Nodup) (cid : String) :
    ((cid ∈ alKeys (reclassifyAllCalls st).oneToOneCallMap ∨
        cid ∈ alKeys (reclassifyAllCalls st).groupCallMap ∨
        cid ∈ alKeys (reclassifyAllCalls st).unknownCallMap) ↔
      cid ∈ alKeys (reclassifyAllCalls st).callIdToLogsMap)
    ∧ ¬(cid ∈ alKeys (reclassifyAllCalls st).oneToOneCallMap ∧
        cid ∈ alKeys (reclassifyAllCalls st).groupCallMap)
    ∧ ¬(cid ∈ alKeys (reclassifyAllCalls st).oneToOneCallMap ∧
        cid ∈ alKeys (reclassifyAllCalls st).unknownCallMap)
    ∧ ¬(cid ∈ alKeys (reclassifyAllCalls st).groupCallMap ∧
        cid ∈ alKeys (reclassifyAllCalls st).unknownCallMap) := by
  have hinv0 : PartInv { st with
      oneToOneCallMap := [],
      groupCallMap := [],
      unknownCallMap := [] } [] := by
    refine ⟨fun c => ?_, fun c => ?_, fun c => ?_, fun c => ?_⟩ <;>
      simp [alKeys]
  have hmain := foldl_reclassStep_PartInv st.callIdToLogsMap _ [] hinv0
    (by simpa using h)
  rw [reclassifyAllCalls_eq, foldl_reclassStep_callIdToLogsMap]
  obtain ⟨hcov, h12, h13, h23⟩ := hmain
  have hcov2 := hcov cid
  simp only [List.nil_append] at hcov2
  exact ⟨hcov2, h12 cid, h13 cid, h23 cid⟩

theorem c3_reclassify_partitions_witness :
    (alKeys c3exState.callIdToLogsMap).Nodup ∧
    (((("c" : String)) ∈ alKeys (reclassifyAllCalls c3exState).oneToOneCallMap ∨
        (("c" : String)) ∈ alKeys (reclassifyAllCalls c3exState).groupCallMap ∨
        (("c" : String)) ∈ alKeys (reclassifyAllCalls c3exState).unknownCallMap) ↔
      (("c" : String)) ∈ alKeys (reclassifyAllCalls c3exState).callIdToLogsMap)
    ∧ ¬((("c" : String)) ∈ alKeys (reclassifyAllCalls c3exState).oneToOneCallMap ∧
        (("c" : String)) ∈ alKeys (reclassifyAllCalls c3exState).groupCallMap)
    ∧ ¬((("c" : String)) ∈ alKeys (reclassifyAllCalls c3exState).oneToOneCallMap ∧
        (("c" : String)) ∈ alKeys (reclassifyAllCalls c3exState).unknownCallMap)
    ∧ ¬((("c" : String)) ∈ alKeys (reclassifyAllCalls c3exState).groupCallMap ∧
        (("c" : String)) ∈ alKeys (reclassifyAllCalls c3exState).unknownCallMap) :=
  ⟨by decide, c3_reclassify_partitions c3exState (by decide) (("c" : String))⟩

/-! ### C4: reclassification is idempotent -/

theorem pushPartition_callTypeMap (st : ParserState) (ty : CallType)
    (cid : String) (logs : List ParsedLogInfo) :
    (pushPartition st ty cid logs).callTypeMap = st.callTypeMap := by
  cases ty <;> rfl

theorem reclassStep_callTypeMap (st : ParserState)
    (e : String × List ParsedLogInfo) :
    (reclassStep st e).callTypeMap =
      if (alFind st.callTypeMap e.1).isSome = true then st.callTypeMap
      else alSet st.callTypeMap e.1 (classifyCall e.2) := by
  simp only [reclassStep]
  by_cases h : (alFind st.callTypeMap e.1).isSome = true
  · simp only [h, if_true]
    rw [pushPartition_callTypeMap]
  · rw [Bool.not_eq_true] at h
    simp only [h, Bool.false_eq_true, if_false]
    rw [pushPartition_callTypeMap]

theorem reclassStep_callTypeMap_mono (st : ParserState)
    (e : String × List ParsedLogInfo) (k : String) (v : CallType)
    (h : alFind st.callTypeMap k = some v) :
    alFind (reclassStep st e).callTypeMap k = some v := by
  rw [reclassStep_callTypeMap]
  by_cases hs : (alFind st.callTypeMap e.1).isSome = true
  · rw [if_pos hs]
    exact h
  · rw [if_neg hs]
    by_cases hk : k = e.1
    · subst hk
      rw [h] at hs
      exact absurd rfl hs
    · rw [alFind_alSet_ne _ _ _ k hk]
      exact h

theorem foldl_reclassStep_callTypeMap_mono :
    ∀ (es : List (String × List ParsedLogInfo)) (st : ParserState)
      (k : String) (v : CallType),
      alFind st.callTypeMap k = some v →
      alFind ((es.foldl reclassStep st)).callTypeMap k = some v := by
  intro es
  induction es with
  | nil => intro st k v h; exact h
  | cons e rest ih =>
      intro st k v h
      rw [List.foldl_cons]
      exact ih _ k v (reclassStep_callTypeMap_mono st e k v h)

theorem reclassStep_lookup_isSome (st : ParserState)
    (e : String × List ParsedLogInfo) :
    ∃ v, alFind (reclassStep st e).callTypeMap e.1 = some v := by
  rw [reclassStep_callTypeMap]
  by_cases hs : (alFind st.callTypeMap e.1).isSome = true
  · rw [if_pos hs]
    exact Option.isSome_iff_exists.mp hs
  · rw [if_neg hs]
    exact ⟨classifyCall e.2, alFind_alSet_self _ _ _⟩

theorem foldl_reclassStep_classifies :
    ∀ (es : List (String × List ParsedLogInfo)) (st : ParserState)
      (e : String × List ParsedLogInfo), e ∈ es →
      (alFind ((es.foldl reclassStep st)).callTypeMap e.1).isSome = true := by
  intro es
  induction es with
  | nil => intro st e h; cases h
  | cons f rest ih =>
      intro st e h
      rw [List.foldl_cons]
      rcases List.mem_cons.mp h with rfl | hmem
      · rcases reclassStep_lookup_isSome st e with ⟨v, hv⟩
        rw [foldl_reclassStep_callTypeMap_mono rest (reclassStep st e) e.1 v hv]
        rfl
      · exact ih (reclassStep st f) e hmem

theorem foldl_reclassStep_callTypeMap_stable :
    ∀ (es : List (String × List ParsedLogInfo)) (st : ParserState),
      (∀ e, e ∈ es → (alFind st.callTypeMap e.1).isSome = true) →
      ((es.foldl reclassStep st)).callTypeMap = st.callTypeMap := by
  intro es
  induction es with
  | nil => intro st _; rfl
  | cons f rest ih =>
      intro st h
      have hf := h f (List.mem_cons_self _ _)
      have hstep : (reclassStep st f).callTypeMap = st.callTypeMap := by
        rw [reclassStep_callTypeMap, if_pos hf]
      rw [List.foldl_cons,
        ih _ (fun e he => by rw [hstep]; exact h e (List.mem_cons_of_mem _ he)),
        hstep]

theorem pushPartition_partsOf_congr (s t : ParserState) (ty : CallType)
    (cid : String) (logs : List ParsedLogInfo)
    (hp : partsOf s = partsOf t) :
    partsOf (pushPartition s ty cid logs) =
      partsOf (pushPartition t ty cid logs) := by
  have h1 : s.oneToOneCallMap = t.oneToOneCallMap :=
    congrArg (fun p => p.1) hp
  have h2 : s.groupCallMap = t.groupCallMap :=
    congrArg (fun p => p.2.1) hp
  have h3 : s.unknownCallMap = t.unknownCallMap :=
    congrArg (fun p => p.2.2) hp
  cases ty <;> simp [pushPartition, partsOf, h1, h2, h3]

theorem foldl_partStep_partsOf_congr (M : List (String × CallType)) :
    ∀ (es : List (String × List ParsedLogInfo)) (s t : ParserState),
      partsOf s = partsOf t →
      partsOf (es.foldl (partStep M) s) = partsOf (es.foldl (partStep M) t) := by
  intro es
  induction es with
  | nil => intro s t h; exact h
  | cons e rest ih =>
      intro s t h
      rw [List.foldl_cons, List.foldl_cons]
      exact ih _ _ (pushPartition_partsOf_congr _ _ _ _ _ h)

theorem reclassStep_partsOf (st : ParserState)
    (e : String × List ParsedLogInfo) :
    partsOf (reclassStep st e) =
      partsOf (partStep (reclassStep st e).callTypeMap st e) := by
  simp only [reclassStep, partStep]
  by_cases hs : (alFind st.callTypeMap e.1).isSome = true
  · simp only [hs, if_true]
    rw [pushPartition_callTypeMap]
  · rw [Bool.not_eq_true] at hs
    simp only [hs, Bool.false_eq_true, if_false]
    rw [pushPartition_callTypeMap]
    exact pushPartition_partsOf_congr _ _ _ _ _ rfl

theorem foldl_reclassStep_partsOf :
    ∀ (es : List (String × List ParsedLogInfo)) (st : ParserState),
      partsOf (es.foldl reclassStep st) =
        partsOf (es.foldl
          (partStep ((es.foldl reclassStep st).callTypeMap)) st) := by
  intro es
  induction es with
  | nil => intro st; rfl
  | cons e rest ih =>
      intro st
      rw [List.foldl_cons, List.foldl_cons, ih (reclassStep st e)]
      apply foldl_partStep_partsOf_congr
      rcases reclassStep_lookup_isSome st e with ⟨v, hv⟩
      have hMf : alFind
          ((rest.foldl reclassStep (reclassStep st e)).callTypeMap) e.1 =
            some v :=
        foldl_reclassStep_callTypeMap_mono rest _ e.1 v hv
      rw [reclassStep_partsOf st e]
      simp only [partStep, hv, hMf]

theorem parserState_ext (a b : ParserState)
    (h1 : a.rtcCallLogs = b.rtcCallLogs)
    (h2 : a.callIdToLogsMap = b.callIdToLogsMap)
    (hp : partsOf a = partsOf b)
    (h6 : a.callTypeMap = b.callTypeMap) : a = b := by
  cases a
  cases b
  simp only [partsOf, Prod.mk.injEq] at hp
  obtain ⟨p1, p2, p3⟩ := hp
  simp_all

/-- C4: running the reclassification sweep twice on an unchanged store
produces exactly the same state — in particular identical partitions —
as running it once. -/
theorem c4_reclassify_idempotent (st : ParserState) :
    reclassifyAllCalls (reclassifyAllCalls st) = reclassifyAllCalls st := by
  have hmap1 : (reclassifyAllCalls st).callIdToLogsMap = st.callIdToLogsMap := by
    rw [reclassifyAllCalls_eq, foldl_reclassStep_callIdToLogsMap]
  have hclassified : ∀ e, e ∈ st.callIdToLogsMap →
      (alFind (reclassifyAllCalls st).callTypeMap e.1).isSome = true := by
    intro e he
    rw [reclassifyAllCalls_eq]
    exact foldl_reclassStep_classifies st.callIdToLogsMap _ e he
  apply parserState_ext
  · rw [reclassifyAllCalls_eq (reclassifyAllCalls st),
      foldl_reclassStep_rtcCallLogs]
  · rw [reclassifyAllCalls_eq (reclassifyAllCalls st),
      foldl_reclassStep_callIdToLogsMap, hmap1]
  · rw [reclassifyAllCalls_eq (reclassifyAllCalls st), hmap1,
      foldl_reclassStep_partsOf]
    have hM2 : (st.callIdToLogsMap.foldl reclassStep
        { rtcCallLogs := (reclassifyAllCalls st).rtcCallLogs,
          callIdToLogsMap := st.callIdToLogsMap,
          oneToOneCallMap := [],
          groupCallMap := [],
          unknownCallMap := [],
          callTypeMap := (reclassifyAllCalls st).callTypeMap }).callTypeMap =
        (reclassifyAllCalls st).callTypeMap :=
      foldl_reclassStep_callTypeMap_stable _ _ (fun e he => hclassified e he)
    rw [hM2]
    conv_rhs => rw [reclassifyAllCalls_eq st, foldl_reclassStep_partsOf]
    exact foldl_partStep_partsOf_congr _ _ _ _ rfl
  · rw [reclassifyAllCalls_eq (reclassifyAllCalls st), hmap1]
    exact foldl_reclassStep_callTypeMap_stable _ _ (fun e he => hclassified e he)
